import Mathlib

/-!
Formal model of the Android Energy Debugger's trace-analysis core
(`SystemMetrics.py`, `ProcessTree.py`).

Python floats are modelled as exact rationals (`ℚ`), timestamps and other
machine integers as `ℤ`/`ℕ`; fallible Python code (raised exceptions,
failed assertions) is modelled with `Except String`/`Option`.  External
collaborators (the adb shell probes behind `PIDTool`'s lookups, the
temperature table behind `SystemMetrics.get_temp`) are passed in as
oracle functions, exactly at the call boundaries where the analysed code
consults them.
-/

set_option autoImplicit false

/-- Python 2 `round`: round half away from zero, as a rational-valued model
of `round(float) -> float` (the result is always integral). -/
def py_round (q : ℚ) : ℤ :=
  if 0 ≤ q then ⌊q + 1/2⌋ else ⌈q - 1/2⌉

/-- Python truthiness of an integer (`if x:`). -/
def py_truthy (n : ℕ) : Bool :=
  n != 0

/-- Python list read `l[i]` for `i : int`: a non-negative index reads from
the front, a negative index `i ≥ -len(l)` reads `l[len(l)+i]`, anything
else raises `IndexError` (here: `none`). -/
def py_list_get (l : List ℚ) (i : ℤ) : Option ℚ :=
  if 0 ≤ i then l.get? i.toNat
  else if 0 ≤ i + l.length then l.get? (i + l.length).toNat
  else none

/-- Source `SystemMetrics.py` class `CPUUtilizationSlice` (also used by the GPU
table): `start_time`, `duration = (finish_time - 1) - start_time`, an idle
`state` (Python int/bool/enum truthiness collapsed to `Bool`), `freq` and
a `util` percentage. -/
structure CPUUtilizationSlice where
  start_time : ℤ
  duration : ℤ
  state : Bool
  freq : ℚ
  util : ℚ
  deriving DecidableEq, Repr

/-- Source `CPUUtilizationSlice.__init__`: the stored duration is
`(finish_time - 1) - start_time`. -/
def CPUUtilizationSlice.make (start_time finish_time : ℤ) (freq : ℚ)
    (state : Bool) (util : ℚ) : CPUUtilizationSlice :=
  { start_time := start_time
    duration := (finish_time - 1) - start_time
    state := state
    freq := freq
    util := util }

/-- Source `SystemMetrics.py` class `CPUUtilizationTable`: per-core sparse events
plus the dense `utils` lookup array compiled from them. -/
structure CPUUtilizationTable where
  core : ℕ
  start_time : ℤ
  last_event_time : ℤ
  core_state : Bool
  events : List CPUUtilizationSlice
  utils : List ℚ
  deriving DecidableEq, Repr

/-- A fresh `CPUUtilizationTable(core_num)`: `start_time = 0`,
`last_event_time = 0`, `core_state = 0` (falsy), no events, no utils. -/
def initial_cpu_table (core : ℕ) : CPUUtilizationTable :=
  { core := core, start_time := 0, last_event_time := 0, core_state := false
    events := [], utils := [] }

/-- Source `CPUUtilizationTable.get_util(ts)`: reads `self.utils[ts - self.start_time - 1]`
inside `try`, returning `0.0` on `IndexError`.  Python's negative-index
semantics (wrapping from the end of the list) is part of the indexing. -/
def CPUUtilizationTable.get_util (t : CPUUtilizationTable) (ts : ℤ) : ℚ :=
  (py_list_get t.utils (ts - t.start_time - 1)).getD 0

/-- The claim's reading of `get_util` (spec wording): the dense-array value
at offset `ts - start_time` when that offset is inside the filled range,
and `0.0` for every out-of-range lookup. -/
def get_util_claim (t : CPUUtilizationTable) (ts : ℤ) : ℚ :=
  if 0 ≤ ts - t.start_time ∧ ts - t.start_time < t.utils.length then
    t.utils.getD (ts - t.start_time).toNat 0
  else 0

/-- The trailing-window accumulation loop of `calc_util_last_event`:
iterate the slices most-recent-first, adding each slice's duration to
`calc_duration` (and to `active_duration` when its state is truthy), and
break once `calc_duration ≥ 25000`.  The argument list is the reversed
event list. -/
def calc_trailing (calc_duration active_duration : ℤ) :
    List CPUUtilizationSlice → ℤ × ℤ
  | [] => (calc_duration, active_duration)
  | ev :: older =>
      let calc' := calc_duration + ev.duration
      let act' := if ev.state then active_duration + ev.duration else active_duration
      if 25000 ≤ calc' then (calc', act') else calc_trailing calc' act' older

/-- Source `CPUUtilizationTable.calc_util_last_event`: computes the trailing
250 ms utilization and stores it on the most recent slice.
`float(active)/float(calc)` raises `ZeroDivisionError` when the traversed
duration is zero (also covering an empty event list), and `events[-1]` on
an empty list would raise `IndexError`. -/
def CPUUtilizationTable.calc_util_last_event (t : CPUUtilizationTable) :
    Except String CPUUtilizationTable :=
  let ca := calc_trailing 0 0 t.events.reverse
  if ca.1 = 0 then
    .error "ZeroDivisionError: float division by zero"
  else
    match t.events.getLast? with
    | none => .error "IndexError: list index out of range"
    | some last =>
        .ok { t with events := t.events.dropLast ++ [{ last with util := (ca.2 : ℚ) / (ca.1 : ℚ) * 100 }] }

/-- A `cpu_idle` trace event as consumed by `add_idle_event`:
timestamp, core number and raw idle state (`4294967295` is the sentinel
for leaving idle). -/
structure EventIdle where
  time : ℤ
  cpu : ℕ
  state : ℕ
  deriving DecidableEq, Repr

/-- Source `CPUUtilizationTable.add_idle_event(event)`.  The first event (detected
by `start_time is 0`; CPython interns small ints so this is `== 0`)
records the start time and the initial core state and appends nothing.
Every later event appends one `CPUUtilizationSlice` from the previous
event's offset to this event's offset (at the engine's current frequency
for the core, passed here as `freq`), updates `last_event_time`,
recomputes the trailing-window utilization of the just-appended slice,
and finally updates `core_state` (the sentinel toggles it, any other state
is stored via truthiness). -/
def CPUUtilizationTable.add_idle_event (freq : ℚ) (t : CPUUtilizationTable)
    (event : EventIdle) : Except String CPUUtilizationTable :=
  if t.start_time = 0 then
    .ok { t with
          start_time := event.time
          core_state := if event.state = 4294967295 then true else !(py_truthy event.state) }
  else
    let t1 := { t with
                events := t.events ++
                  [CPUUtilizationSlice.make t.last_event_time (event.time - t.start_time) freq t.core_state 0]
                last_event_time := event.time - t.start_time }
    match t1.calc_util_last_event with
    | .error msg => .error msg
    | .ok t2 =>
        .ok { t2 with
              core_state := if event.state = 4294967295 then !t2.core_state else py_truthy event.state }

/-- Folding a chronological stream of idle events into one core's table
(`ProcessTree.handle_idle_event` calls `add_idle_event` once per event). -/
def add_idle_events (freq : ℚ) (t : CPUUtilizationTable) (es : List EventIdle) :
    Except String CPUUtilizationTable :=
  es.foldlM (CPUUtilizationTable.add_idle_event freq) t

/-- The slice start offsets produced by a run of `add_idle_event` calls:
each event appends a slice starting at the previous event's offset
(`last_event_time` before the call). -/
def idle_offsets (last_event_time start_time : ℤ) : List EventIdle → List ℤ
  | [] => []
  | e :: rest => last_event_time :: idle_offsets (e.time - start_time) start_time rest

/-- The GPU regression constants of `XU3EnergyProfile.XU3RegressionConstants`
as consumed by `get_gpu_cycle_energy`: the voltage table and the three
regression coefficients.  (The profile module is static configuration;
its values are opaque here.) -/
structure GPURegressionProfile where
  GPU_voltages : ℚ → ℚ
  a1 : ℚ
  a2 : ℚ
  a3 : ℚ

/-- Source `SystemMetrics.get_gpu_cycle_energy(freq, util, temp)`:
`voltage * (a1 * voltage * freq * util + a2 * temp + a3)`. -/
def get_gpu_cycle_energy (p : GPURegressionProfile) (freq util temp : ℚ) : ℚ :=
  let voltage := p.GPU_voltages freq
  voltage * (p.a1 * voltage * freq * util + p.a2 * temp + p.a3)

/-- Source `SystemMetrics.py` class `GPUUtilizationTable`. -/
structure GPUUtilizationTable where
  start_time : ℤ
  last_event_time : ℤ
  current_util : ℚ
  finish_time : ℤ
  events : List CPUUtilizationSlice
  deriving DecidableEq, Repr

/-- Source `GPUUtilizationTable.add_event(event)`: append a slice from the last
event offset to this event's offset carrying the event's frequency and the
table's previous utilization, then remember the new utilization/offset. -/
def GPUUtilizationTable.add_event (t : GPUUtilizationTable)
    (time : ℤ) (freq util : ℚ) : GPUUtilizationTable :=
  { t with
    events := t.events ++
      [CPUUtilizationSlice.make t.last_event_time (time - t.start_time) freq false t.current_util]
    current_util := util
    last_event_time := time - t.start_time }

/-- Per-event outcome inside `get_energy`'s loop: either continue with an
updated accumulator, or stop the whole integration (an assertion failure /
exception, or the early `return energy`). -/
inductive EnergyStepRes where
  | cont (acc : ℚ)
  | done (res : Except String ℚ)
  deriving Repr

/-- One iteration of `GPUUtilizationTable.get_energy`'s event loop, for the
event `ev` with accumulator `acc`.  `getTemp` is
`SystemMetrics.current_metrics.get_temp(·, -1)`.  Mirrors the source:
zero temperature and zero per-cycle energy are assertion failures; the
start / end / middle overlap cases each compute a cycle count and assert
it nonzero; an event starting at or after the relative finish time returns
the accumulated energy; any other event leaves `cycles = 0` and adds
nothing. -/
def energy_step (getTemp : ℤ → ℚ) (p : GPURegressionProfile)
    (table_start relative_start relative_finish : ℤ)
    (acc : ℚ) (ev : CPUUtilizationSlice) : EnergyStepRes :=
  let temp := getTemp (ev.start_time + table_start)
  if temp = 0 then
    .done (.error ("AssertionError: GPU temp found to be zero at time " ++
      toString (ev.start_time + table_start)))
  else
    let cycle_energy := get_gpu_cycle_energy p ev.freq ev.util temp / ev.freq
    if cycle_energy = 0 then
      .done (.error ("AssertionError: freq: " ++ toString ev.freq ++ ", util: " ++
        toString ev.util ++ ", temp: " ++ toString temp))
    else
      if relative_start ≥ ev.start_time ∧ relative_start < ev.start_time + ev.duration then
        let cycles := ((ev.duration - (relative_start - ev.start_time) : ℤ) : ℚ)
          * (1 / 1000000000) * ev.freq
        if cycles = 0 then
          .done (.error "AssertionError: start-case cycles are zero")
        else .cont (acc + cycle_energy * cycles)
      else if relative_finish ≥ ev.start_time ∧ relative_finish < ev.start_time + ev.duration then
        -- NB: the source computes `duration - (relative_finish - start)` here,
        -- the complement of the overlapped prefix.
        let cycles := ((ev.duration - (relative_finish - ev.start_time) : ℤ) : ℚ)
          * (1 / 1000000000) * ev.freq
        if cycles = 0 then
          .done (.error "AssertionError: end-case cycles are zero")
        else .cont (acc + cycle_energy * cycles)
      else if relative_start < ev.start_time ∧ relative_finish > ev.start_time + ev.duration then
        let cycles := (ev.duration : ℚ) * (1 / 1000000000) * ev.freq
        if cycles = 0 then
          .done (.error "AssertionError: Cycles could not be found for GPU")
        else .cont (acc + cycle_energy * cycles)
      else if ev.start_time ≥ relative_finish then
        .done (.ok acc)
      else
        -- no case matched: `cycles` is still 0, `energy += cycle_energy * 0`
        .cont acc

/-- The event loop of `get_energy`: walk the slices in order, threading the
accumulator; a `done` step ends the walk, an exhausted list returns the
accumulator. -/
def energy_go (getTemp : ℤ → ℚ) (p : GPURegressionProfile)
    (table_start relative_start relative_finish : ℤ) :
    List CPUUtilizationSlice → ℚ → Except String ℚ
  | [], acc => .ok acc
  | ev :: rest, acc =>
      match energy_step getTemp p table_start relative_start relative_finish acc ev with
      | .done r => r
      | .cont acc' => energy_go getTemp p table_start relative_start relative_finish rest acc'

/-- Prefix of the event loop: walking a list of slices either stops with a
`done` result or continues with the accumulator it reached. -/
def energy_go_pre (getTemp : ℤ → ℚ) (p : GPURegressionProfile)
    (table_start relative_start relative_finish : ℤ) :
    List CPUUtilizationSlice → ℚ → EnergyStepRes
  | [], acc => .cont acc
  | ev :: rest, acc =>
      match energy_step getTemp p table_start relative_start relative_finish acc ev with
      | .done r => .done r
      | .cont acc' => energy_go_pre getTemp p table_start relative_start relative_finish rest acc'

/-- Decidable mirror of the conditions under which `energy_step` stops the
integration with an error: zero temperature at the slice's (absolute)
start time, zero per-cycle energy, or a zero cycle count inside one of the
three overlap branches. -/
def energy_step_fails (getTemp : ℤ → ℚ) (p : GPURegressionProfile)
    (table_start relative_start relative_finish : ℤ)
    (ev : CPUUtilizationSlice) : Bool :=
  let temp := getTemp (ev.start_time + table_start)
  if temp = 0 then true
  else
    let cycle_energy := get_gpu_cycle_energy p ev.freq ev.util temp / ev.freq
    if cycle_energy = 0 then true
    else
      if relative_start ≥ ev.start_time ∧ relative_start < ev.start_time + ev.duration then
        decide (((ev.duration - (relative_start - ev.start_time) : ℤ) : ℚ)
          * (1 / 1000000000) * ev.freq = 0)
      else if relative_finish ≥ ev.start_time ∧ relative_finish < ev.start_time + ev.duration then
        decide (((ev.duration - (relative_finish - ev.start_time) : ℤ) : ℚ)
          * (1 / 1000000000) * ev.freq = 0)
      else if relative_start < ev.start_time ∧ relative_finish > ev.start_time + ev.duration then
        decide ((ev.duration : ℚ) * (1 / 1000000000) * ev.freq = 0)
      else false

/-- The relative integration window computed at the top of `get_energy`:
a literal `start_time == 0` and a negative relative start both clamp the
relative start to `0`; the relative finish is `finish_time - start_time`
of the table (the `finish_time == 0` special case is handled by the
caller). -/
def relative_times (t : GPUUtilizationTable) (start_time finish_time : ℤ) : ℤ × ℤ :=
  (if start_time = 0 then 0
   else if start_time - t.start_time < 0 then 0 else start_time - t.start_time,
   finish_time - t.start_time)

/-- Source `GPUUtilizationTable.get_energy(start_time, finish_time)`.  A zero
`finish_time` reads `self.events[-1].time`, an attribute
`CPUUtilizationSlice` does not have, so it raises `AttributeError`.
Otherwise the relative window is computed and the event loop runs from
accumulator `0`. -/
def GPUUtilizationTable.get_energy (getTemp : ℤ → ℚ) (p : GPURegressionProfile)
    (t : GPUUtilizationTable) (start_time finish_time : ℤ) : Except String ℚ :=
  if finish_time = 0 then
    .error "AttributeError: CPUUtilizationSlice instance has no attribute time"
  else
    energy_go getTemp p t.start_time (relative_times t start_time finish_time).1
      (relative_times t start_time finish_time).2 t.events 0

/-- Source `SystemEvents.BinderType`: the three binder transaction kinds. -/
inductive BinderType where
  | CALL
  | ASYNC
  | REPLY
  deriving DecidableEq, Repr

/-- Source `PIDTool.PID`: a numeric PID with its process and thread names. -/
structure PID where
  pid : ℕ
  pname : String
  tname : String
  deriving DecidableEq, Repr

/-- Lookup in a Python dict keyed by PID (first matching key). -/
def dict_lookup (d : List (ℕ × PID)) (k : ℕ) : Option PID :=
  (d.find? (fun kv => kv.1 == k)).map Prod.snd

/-- Key membership in a Python dict keyed by PID (`k in d`). -/
def dict_contains (d : List (ℕ × PID)) (k : ℕ) : Bool :=
  (dict_lookup d k).isSome

/-- Assignment `d[k] = v` on a Python dict keyed by PID. -/
def dict_insert (d : List (ℕ × PID)) (k : ℕ) (v : PID) : List (ℕ × PID) :=
  if dict_contains d k then d.map (fun kv => if kv.1 == k then (k, v) else kv)
  else d ++ [(k, v)]

/-- The three PID partitions held by `PIDTool` (`app_pids`, `system_pids`,
`binder_pids`), each a dict from PID to its record. -/
structure PIDTracer where
  app_pids : List (ℕ × PID)
  system_pids : List (ℕ × PID)
  binder_pids : List (ℕ × PID)
  deriving DecidableEq, Repr

/-- The adb-backed probes of `PIDTool` (`find_pid_info`,
`find_child_binder_threads`): external collaborators, passed in as
oracles. -/
structure PIDToolOracle where
  find_pid_info : ℕ → Option PID
  child_binder_threads : ℕ → List ℕ

/-- Source `PIDTool.get_pid_info(pid_no)`: consult the three tracked partitions in
order, falling back to the adb probe `find_pid_info`. -/
def get_pid_info (o : PIDToolOracle) (tr : PIDTracer) (n : ℕ) : Option PID :=
  match dict_lookup tr.app_pids n with
  | some p => some p
  | none =>
    match dict_lookup tr.system_pids n with
    | some p => some p
    | none =>
      match dict_lookup tr.binder_pids n with
      | some p => some p
      | none => o.find_pid_info n

/-- Event payloads, one case per event class dispatched by
`ProcessTree.handle_event` (`EventSchedSwitch`, `EventBinderTransaction`,
`EventFreqChange`, `EventMaliUtil`); `other` stands for any event object
matching none of the `isinstance` tests. -/
inductive EventKind where
  | schedSwitch (next_pid : ℕ)
  | binderTransaction (trans_type : BinderType) (target_pid : ℕ)
  | freqChange (freq util : ℚ) (target_cpu : ℕ)
  | maliUtil (freq util : ℚ)
  | other
  deriving DecidableEq, Repr

/-- A trace event as seen by `ProcessTree.handle_event`: the common fields
written or read by the dispatcher prologue plus the kind-specific
payload. -/
structure Event where
  time : ℤ
  pid : ℕ
  cpu : ℕ
  cpu_freq : ℚ × ℚ
  gpu_freq : ℚ
  gpu_util : ℚ
  kind : EventKind
  deriving DecidableEq, Repr

/-- The live frequency/utilization state held by `SystemMetrics` that
`handle_event` reads and updates (plus the GPU history table it feeds). -/
structure SystemMetricsState where
  current_core_freqs : List ℚ
  current_core_utils : List ℚ
  current_gpu_freq : ℚ
  current_gpu_util : ℚ
  gpu : GPUUtilizationTable
  deriving DecidableEq, Repr

/-- Source `SystemMetrics.get_cpu_core_freq(core)`:
`self.current_core_freqs[core]` (the list always has one entry per core;
out-of-range reads are modelled with default `0`). -/
def get_cpu_core_freq (m : SystemMetricsState) (core : ℕ) : ℚ :=
  m.current_core_freqs.getD core 0

/-- The dispatcher prologue of `ProcessTree.handle_event` (the event
mutation before any `isinstance` dispatch):
`event.cpu_freq[0] = get_cpu_core_freq(0)`,
`event.cpu_freq[1] = get_cpu_core_freq(4)`,
`event.gpu_freq = current_gpu_freq`, `event.gpu_util = current_gpu_util`. -/
def set_event_freqs (m : SystemMetricsState) (e : Event) : Event :=
  { e with
    cpu_freq := (get_cpu_core_freq m 0, get_cpu_core_freq m 4)
    gpu_freq := m.current_gpu_freq
    gpu_util := m.current_gpu_util }

/-- The binder target PID carried by a binder transaction event
(`event.target_pid`); `0` for non-binder events. -/
def Event.target_pid : Event → ℕ
  | e =>
    match e.kind with
    | .binderTransaction _ t => t
    | _ => 0

/-- The transaction type carried by a binder transaction event
(`event.trans_type`). -/
def Event.trans_type : Event → Option BinderType
  | e =>
    match e.kind with
    | .binderTransaction tt _ => some tt
    | _ => none

/-- Modelled from the spec: `SystemEvents.py` (class
`FirstHalfBinderTransaction`) is not among the sources.  Per spec §3 a
pending first half "carries the caller PID, target PID, the resolved set
of candidate binder-thread child PIDs of the target, and the originating
event"; `ProcessTree` reads the fields `send_event`, `parent_pid` (the PID
matched against a reply sender together with the children — per spec §4.1
the reply matches "an entry whose target binder-thread children set
contains the sender PID, or whose original caller PID equals the sender
PID", so `parent_pid` is the caller) and `child_pids`. -/
structure FirstHalfBinderTransaction where
  send_event : Event
  parent_pid : ℕ
  child_pids : List ℕ
  deriving DecidableEq, Repr

/-- Modelled from the spec: the constructor call
`FirstHalfBinderTransaction(event, event.target_pid, self.pidtracer)`
stores the send event, the caller PID as `parent_pid`, and the target's
child binder threads (resolved through the classifier oracle, cf.
`PIDTool.find_child_binder_threads`). -/
def FirstHalfBinderTransaction.make (o : PIDToolOracle) (e : Event)
    (target : ℕ) : FirstHalfBinderTransaction :=
  { send_event := e
    parent_pid := e.pid
    child_pids := o.child_binder_threads target }

/-- Modelled from the spec: `SystemEvents.py` (class
`CompletedBinderTransaction`) is not among the sources.  Per spec §3 a
completed transaction carries "caller PID, target PID, binder-thread PID,
transaction kind (synchronous call, asynchronous, reply), and references
to both halves' events"; `ProcessTree` reads exactly the fields
`transaction_type`, `caller_pid`, `target_pid`, `binder_thread`,
`first_half` and `second_half`. -/
structure CompletedBinderTransaction where
  transaction_type : BinderType
  caller_pid : ℕ
  target_pid : ℕ
  binder_thread : ℕ
  first_half : Option Event
  second_half : Event
  deriving DecidableEq, Repr

/-- Modelled from the spec: `CompletedBinderTransaction(event)` for an
async send — no first half, and the caller acts as its own binder thread
(spec §4.1). -/
def CompletedBinderTransaction.ofAsync (e : Event) : CompletedBinderTransaction :=
  { transaction_type := .ASYNC
    caller_pid := e.pid
    target_pid := e.target_pid
    binder_thread := e.pid
    first_half := none
    second_half := e }

/-- Modelled from the spec: `CompletedBinderTransaction(event, send_event)`
for a matched reply — the caller and target come from the first half, the
binder thread is the reply's sender, and both halves are kept. -/
def CompletedBinderTransaction.ofReply (reply send_event : Event) :
    CompletedBinderTransaction :=
  { transaction_type := .CALL
    caller_pid := send_event.pid
    target_pid := send_event.target_pid
    binder_thread := reply.pid
    first_half := some send_event
    second_half := reply }

/-- The branch/graph operations `handle_event` performs through
`ProcessBranch.add_event` (whose class is not among the sources); recorded
as an append-only action log. -/
inductive TreeAction where
  | sched_switch_out (pid : ℕ) (e : Event)
  | sched_switch_in (pid : ℕ) (e : Event)
  | binder_send (branch : ℕ) (e : Event)
  | binder_recv (branch : ℕ) (e : Event)
  | binder_switch_in (pid : ℕ) (e : Event)
  deriving DecidableEq, Repr

/-- The mutable state of a `ProcessTree` relevant to event dispatch: the
PID classifier's partitions, the keys of the two branch dicts (branch
objects themselves live in the absent `ProcessBranch.py`; their
`add_event` calls are logged in `actions`), and the two binder matching
queues. -/
structure ProcessTreeState where
  pidtracer : PIDTracer
  process_branches : List ℕ
  binder_branches : List ℕ
  pending_binder_calls : List FirstHalfBinderTransaction
  completed_binder_calls : List CompletedBinderTransaction
  actions : List TreeAction
  deriving DecidableEq, Repr

/-- Append one `add_event` call to the action log. -/
def ProcessTreeState.log (st : ProcessTreeState) (a : TreeAction) : ProcessTreeState :=
  { st with actions := st.actions ++ [a] }

/-- The on-demand PID resolution performed for a matched completed
transaction during switch-in dispatch (`ProcessTree.handle_event`, the
body of the completed-calls loop before the event attribution): for an
async transaction a missing caller branch is created from
`get_pid_info(caller_pid)`, for a sync transaction a missing
binder-thread branch from `find_pid_info(binder_thread)`, then a missing
target branch from `find_pid_info(next_pid)`.  Each lookup failure stops
resolution with `false`; updates made before the failing lookup are kept
(the source mutates in place). -/
def resolve_completed_tx (o : PIDToolOracle) (st : ProcessTreeState)
    (tx : CompletedBinderTransaction) (next_pid : ℕ) : ProcessTreeState × Bool :=
  let step1 :=
    if tx.transaction_type = BinderType.ASYNC then
      if !(st.binder_branches.contains tx.caller_pid) then
        match get_pid_info o st.pidtracer tx.caller_pid with
        | none => none
        | some info =>
            some { st with
                   binder_branches := st.binder_branches ++ [tx.caller_pid]
                   pidtracer := { st.pidtracer with
                                  binder_pids := dict_insert st.pidtracer.binder_pids tx.binder_thread info } }
      else some st
    else
      if !(st.binder_branches.contains tx.binder_thread) then
        match o.find_pid_info tx.binder_thread with
        | none => none
        | some info =>
            some { st with
                   binder_branches := st.binder_branches ++ [tx.binder_thread]
                   pidtracer := { st.pidtracer with
                                  binder_pids := dict_insert st.pidtracer.binder_pids tx.binder_thread info } }
      else some st
  match step1 with
  | none => (st, false)
  | some st1 =>
      if !(st1.process_branches.contains next_pid) then
        match o.find_pid_info next_pid with
        | none => (st1, false)
        | some info =>
            ({ st1 with
               process_branches := st1.process_branches ++ [next_pid]
               pidtracer := { st1.pidtracer with
                              app_pids := dict_insert st1.pidtracer.app_pids next_pid info } }, true)
      else (st1, true)

/-- The branch events recorded for a consumed completed transaction
(`ProcessTree.handle_event` lines after resolution): the first half (or,
for an async transaction, the second half) as a `BINDER_SEND` on the
binder-thread branch, the second half as a `BINDER_RECV` on the same
branch, and the switch-in on the target branch.  The graph-edge and
dependency bookkeeping acts on the absent `ProcessBranch` objects and is
not modelled. -/
def attribute_completed_tx (st : ProcessTreeState)
    (tx : CompletedBinderTransaction) (e : Event) : ProcessTreeState :=
  let st1 :=
    match tx.first_half with
    | some fh => st.log (.binder_send tx.binder_thread fh)
    | none => st.log (.binder_send tx.binder_thread tx.second_half)
  let st2 := st1.log (.binder_recv tx.binder_thread tx.second_half)
  st2.log (.binder_switch_in tx.target_pid e)

/-- Outcome of the completed-transaction scan for one switch-in event. -/
inductive ScanOutcome where
  | consumed (tx : CompletedBinderTransaction)
  | discarded (tx : CompletedBinderTransaction)
  | noMatch
  deriving DecidableEq, Repr

/-- The completed-calls loop of `ProcessTree.handle_event`, phrased on the
most-recent-first view of the queue (the source iterates
`reversed(list(enumerate(self.completed_binder_calls)))`).  The first
entry whose `target_pid` equals the incoming PID is acted on: successful
resolution attributes and deletes it (the source then `return`s),
failed resolution deletes it and `break`s.  Entries after the acted-on
index — older entries — stay in the queue either way. -/
def scan_completed_rev (o : PIDToolOracle) (e : Event) (next_pid : ℕ)
    (st : ProcessTreeState) :
    List CompletedBinderTransaction →
    List CompletedBinderTransaction × ProcessTreeState × ScanOutcome
  | [] => ([], st, .noMatch)
  | tx :: older =>
      if tx.target_pid = next_pid then
        let r := resolve_completed_tx o st tx next_pid
        if r.2 then (older, attribute_completed_tx r.1 tx e, .consumed tx)
        else (older, r.1, .discarded tx)
      else
        let rec' := scan_completed_rev o e next_pid st older
        (tx :: rec'.1, rec'.2)

/-- The completed-transaction scan on the queue in push order: run
`scan_completed_rev` on the reversed queue and store the remaining
entries back in push order. -/
def scan_completed_calls (o : PIDToolOracle) (e : Event) (next_pid : ℕ)
    (st : ProcessTreeState) : ProcessTreeState × ScanOutcome :=
  let r := scan_completed_rev o e next_pid st st.completed_binder_calls.reverse
  ({ r.2.1 with completed_binder_calls := r.1.reverse }, r.2.2)

/-- The `EventSchedSwitch` branch of `ProcessTree.handle_event`.  The
switch-out marker for `event.pid` is appended only when `event.pid != 0`
and the *incoming* PID is a tracked system or app PID (and `event.pid`
has a branch; a missing branch is a caught `KeyError`).  The switch-in
part runs the completed-transaction scan; a consumed transaction returns
immediately, otherwise (no match, or a discarded entry after a failed
lookup) the event is added as an ordinary switch-in when the incoming
PID has a branch.  Returns `0` in every case. -/
def handle_sched_switch (o : PIDToolOracle) (st : ProcessTreeState)
    (e : Event) (next_pid : ℕ) : ProcessTreeState × Option ℤ :=
  let st1 :=
    if e.pid ≠ 0 ∧ (dict_contains st.pidtracer.system_pids next_pid ∨
                    dict_contains st.pidtracer.app_pids next_pid) then
      if st.process_branches.contains e.pid then st.log (.sched_switch_out e.pid e) else st
    else st
  if next_pid ≠ 0 ∧ (dict_contains st1.pidtracer.system_pids next_pid ∨
                     dict_contains st1.pidtracer.app_pids next_pid) then
    let r := scan_completed_calls o e next_pid st1
    match r.2 with
    | .consumed _ => (r.1, some 0)
    | _ =>
        if r.1.process_branches.contains next_pid then
          (r.1.log (.sched_switch_in next_pid e), some 0)
        else (r.1, some 0)
  else (st1, some 0)

/-- The reply-matching loop of `ProcessTree.handle_event`
(`BinderType.REPLY` branch): iterate the pending queue most-recent-first
(the reversed `enumerate` snapshot); every entry whose child binder
threads contain the reply's sender, or whose `parent_pid` equals the
sender, is deleted from the queue and returned (most recent first) —
the loop has no `break`, so the scan continues past a match.  The
argument and the first result are in push order (oldest first). -/
def reply_scan (pid : ℕ) :
    List FirstHalfBinderTransaction →
    List FirstHalfBinderTransaction × List FirstHalfBinderTransaction
  | [] => ([], [])
  | fh :: newer =>
      let r := reply_scan pid newer
      if fh.child_pids.any (fun p => p == pid) || fh.parent_pid == pid then
        (r.1, r.2 ++ [fh])
      else (fh :: r.1, r.2)

/-- The `EventBinderTransaction` branch of `ProcessTree.handle_event`:
a CALL from a tracked app/system PID pushes a pending first half; an
ASYNC from a tracked app/system PID pushes a completed transaction
directly; a REPLY from a tracked system/binder PID runs the
reply-matching scan, appending one completed transaction per matched
pending entry.  Returns `0` in every case. -/
def handle_binder_transaction (o : PIDToolOracle) (st : ProcessTreeState)
    (e : Event) (tt : BinderType) (target : ℕ) : ProcessTreeState × Option ℤ :=
  match tt with
  | .CALL =>
      if dict_contains st.pidtracer.app_pids e.pid ∨
         dict_contains st.pidtracer.system_pids e.pid then
        ({ st with pending_binder_calls :=
            st.pending_binder_calls ++ [FirstHalfBinderTransaction.make o e target] }, some 0)
      else (st, some 0)
  | .ASYNC =>
      if dict_contains st.pidtracer.app_pids e.pid ∨
         dict_contains st.pidtracer.system_pids e.pid then
        ({ st with completed_binder_calls :=
            st.completed_binder_calls ++ [CompletedBinderTransaction.ofAsync e] }, some 0)
      else (st, some 0)
  | .REPLY =>
      if dict_contains st.pidtracer.system_pids e.pid ∨
         dict_contains st.pidtracer.binder_pids e.pid then
        let r := reply_scan e.pid st.pending_binder_calls
        ({ st with
           pending_binder_calls := r.1
           completed_binder_calls := st.completed_binder_calls ++
             r.2.map (fun fh => CompletedBinderTransaction.ofReply e fh.send_event) }, some 0)
      else (st, some 0)

/-- The `EventFreqChange` branch of `ProcessTree.handle_event`: the four
cores of the affected cluster (`target_cpu .. target_cpu+3`) get the
event's frequency and utilization.  (The per-CPU branch objects also
receive the event; they live outside the modelled state.) -/
def handle_freq_change (m : SystemMetricsState) (freq util : ℚ)
    (target_cpu : ℕ) : SystemMetricsState :=
  (List.range 4).foldl
    (fun mm i =>
      { mm with
        current_core_freqs := mm.current_core_freqs.set (target_cpu + i) freq
        current_core_utils := mm.current_core_utils.set (target_cpu + i) util })
    m

/-- The `EventMaliUtil` branch of `ProcessTree.handle_event`: update the
current GPU frequency/utilization and feed the GPU utilization table. -/
def handle_mali_util (m : SystemMetricsState) (e : Event) (freq util : ℚ) :
    SystemMetricsState :=
  { m with
    current_gpu_freq := freq
    current_gpu_util := util
    gpu := m.gpu.add_event e.time freq util }

/-- Dispatch on the (already mutated) event's kind, one case per
`isinstance` test of `ProcessTree.handle_event`; an event matching no
test falls off the end of the method and returns `None`. -/
def dispatch_event (o : PIDToolOracle) (m : SystemMetricsState)
    (st : ProcessTreeState) (e : Event) :
    SystemMetricsState × ProcessTreeState × Option ℤ :=
  match e.kind with
  | .schedSwitch next_pid =>
      let r := handle_sched_switch o st e next_pid
      (m, r.1, r.2)
  | .binderTransaction tt target =>
      let r := handle_binder_transaction o st e tt target
      (m, r.1, r.2)
  | .freqChange freq util target_cpu =>
      (handle_freq_change m freq util target_cpu, st, some 0)
  | .maliUtil freq util =>
      (handle_mali_util m e freq util, st, some 0)
  | .other => (m, st, none)

/-- Source `ProcessTree.handle_event(event)`: overwrite the event's frequency
fields from the engine's current metrics, then dispatch on its kind. -/
def handle_event (o : PIDToolOracle) (m : SystemMetricsState)
    (st : ProcessTreeState) (e : Event) :
    SystemMetricsState × ProcessTreeState × Option ℤ :=
  dispatch_event o m st (set_event_freqs m e)

/-- Source `numpy.argmin` on a rational list: index of the first minimum
(`np.argmin(core_utils[:4])` in `ProcessTree.finish_tree`). -/
def np_argmin : List ℚ → ℕ
  | [] => 0
  | x :: xs =>
      let j := np_argmin xs
      match xs.get? j with
      | none => 0
      | some m => if m < x then j + 1 else 0

/-- The per-task inputs of the big→little reallocation check in
`ProcessTree.finish_tree`: the task's estimated cycle count
(`task.cpu_cycles`), the core of its first event (`task.events[0].cpu`),
the little-cluster frequency recorded on its first event
(`task.events[0].cpu_freq[0]`), its start time, and the start time of its
dependent successor (`task.dependency.next_task.start_time`; `none` when
the dependency lookup raises). -/
structure B2LTask where
  cpu_cycles : ℚ
  cpu : ℕ
  cpu_freq_little : ℚ
  start_time : ℤ
  depender_start_time : Option ℤ
  deriving DecidableEq, Repr

/-- The candidate-frequency loop of the big→little reallocation check
(`for little_freq in lf`), with the little-core utilizations at task
finish, the index of the least-utilized little core, the current little
frequency, the migration-scaled cycle count, the task start and the
dependent successor's start.  Mirrors the source: utilizations are the
existing little-core loads rescaled to the candidate frequency; when they
all stay ≤ 100 the task's finish time on the target core is computed
(`round((1 - new_util/100) * freq)` available cycles — zero available
cycles is a `ZeroDivisionError`, raised before the dependency lookup);
a missing dependent successor `continue`s to the next frequency; a finish
time before the successor's start marks the task and `break`s, returning
the chosen frequency. -/
def b2l_loop (little_cores : List ℚ) (little_core_index : ℕ)
    (cur_little_cpu_freq cycles_on_little : ℚ) (start_time : ℤ)
    (depender_start_time : Option ℤ) : List ℚ → Except String (Option ℚ)
  | [] => .ok none
  | little_freq :: rest =>
      let core_utils_new_freq :=
        if cur_little_cpu_freq ≠ little_freq then
          little_cores.map (fun core => core * (cur_little_cpu_freq / little_freq))
        else little_cores
      if core_utils_new_freq.all (fun core_util => decide (core_util ≤ 100)) then
        let available_cycles : ℚ :=
          (py_round ((1 - core_utils_new_freq.getD little_core_index 0 / 100) * little_freq) : ℚ)
        if available_cycles = 0 then
          .error "ZeroDivisionError: float division by zero"
        else
          let required_duration := cycles_on_little / available_cycles * 1000000
          let finish_time_on_little := py_round ((start_time : ℚ) + required_duration)
          match depender_start_time with
          | none =>
              b2l_loop little_cores little_core_index cur_little_cpu_freq
                cycles_on_little start_time depender_start_time rest
          | some depender_start =>
              if finish_time_on_little < depender_start then .ok (some little_freq)
              else
                b2l_loop little_cores little_core_index cur_little_cpu_freq
                  cycles_on_little start_time depender_start_time rest
      else
        b2l_loop little_cores little_core_index cur_little_cpu_freq
          cycles_on_little start_time depender_start_time rest

/-- The big→little reallocation check of `ProcessTree.finish_tree` for one
task: tasks with zero estimated cycles are skipped entirely, the check
runs only for tasks whose first event ran on a big core (`cpu > 3`), and
the scaled cycle count is `round(task.cpu_cycles * migration_factor)`.
Returns the chosen little frequency when `B2L_REALLOC` is tagged. -/
def b2l_realloc_freq (lf : List ℚ) (mf : ℚ) (little_utils : List ℚ)
    (t : B2LTask) : Except String (Option ℚ) :=
  if t.cpu_cycles = 0 then .ok none
  else if !(decide (3 < t.cpu)) then .ok none
  else
    b2l_loop little_utils (np_argmin little_utils) t.cpu_freq_little
      ((py_round (t.cpu_cycles * mf)) : ℚ) t.start_time t.depender_start_time lf

/-- The feasibility predicate the source's loop actually tests at one
candidate frequency: the existing little-core utilizations rescaled to
the candidate frequency all stay ≤ 100, the dependent successor exists,
and the computed finish time precedes its start. -/
def b2l_code_pred (little_cores : List ℚ) (little_core_index : ℕ)
    (cur_little_cpu_freq cycles_on_little : ℚ) (start_time : ℤ)
    (depender_start_time : Option ℤ) (little_freq : ℚ) : Bool :=
  let core_utils_new_freq :=
    if cur_little_cpu_freq ≠ little_freq then
      little_cores.map (fun core => core * (cur_little_cpu_freq / little_freq))
    else little_cores
  core_utils_new_freq.all (fun core_util => decide (core_util ≤ 100)) &&
    match depender_start_time with
    | none => false
    | some depender_start =>
        let available_cycles : ℚ :=
          (py_round ((1 - core_utils_new_freq.getD little_core_index 0 / 100) * little_freq) : ℚ)
        decide (py_round ((start_time : ℚ) + cycles_on_little / available_cycles * 1000000)
          < depender_start)

/-- The claim's feasibility predicate (spec wording): the little-core
utilizations *after hypothetically adding the task's migration-scaled
cycle cost at the candidate frequency* (on the least-utilized core) all
stay ≤ 100, and the finish time precedes the dependent successor's
start. -/
def b2l_claim_pred (little_cores : List ℚ) (little_core_index : ℕ)
    (cur_little_cpu_freq cycles_on_little : ℚ) (start_time : ℤ)
    (depender_start_time : Option ℤ) (little_freq : ℚ) : Bool :=
  let core_utils_new_freq :=
    if cur_little_cpu_freq ≠ little_freq then
      little_cores.map (fun core => core * (cur_little_cpu_freq / little_freq))
    else little_cores
  let with_task := core_utils_new_freq.set little_core_index
    (core_utils_new_freq.getD little_core_index 0 + cycles_on_little / little_freq * 100)
  with_task.all (fun core_util => decide (core_util ≤ 100)) &&
    match depender_start_time with
    | none => false
    | some depender_start =>
        let available_cycles : ℚ :=
          (py_round ((1 - core_utils_new_freq.getD little_core_index 0 / 100) * little_freq) : ℚ)
        decide (py_round ((start_time : ℚ) + cycles_on_little / available_cycles * 1000000)
          < depender_start)

/-- The claim's version of the whole check: first frequency, lowest to
highest, satisfying `b2l_claim_pred`. -/
def b2l_realloc_freq_claim (lf : List ℚ) (mf : ℚ) (little_utils : List ℚ)
    (t : B2LTask) : Option ℚ :=
  if t.cpu_cycles = 0 then none
  else if !(decide (3 < t.cpu)) then none
  else
    lf.find? (b2l_claim_pred little_utils (np_argmin little_utils) t.cpu_freq_little
      ((py_round (t.cpu_cycles * mf)) : ℚ) t.start_time t.depender_start_time)

/-- The condition under which the candidate-frequency loop raises
`ZeroDivisionError` at one frequency: the scaled utilizations all pass
the ≤ 100 test but the rounded available cycle budget on the target core
is zero. -/
def b2l_avail_zero (little_cores : List ℚ) (little_core_index : ℕ)
    (cur_little_cpu_freq : ℚ) (little_freq : ℚ) : Bool :=
  let core_utils_new_freq :=
    if cur_little_cpu_freq ≠ little_freq then
      little_cores.map (fun core => core * (cur_little_cpu_freq / little_freq))
    else little_cores
  core_utils_new_freq.all (fun core_util => decide (core_util ≤ 100)) &&
    decide ((py_round ((1 - core_utils_new_freq.getD little_core_index 0 / 100) * little_freq) : ℚ) = 0)

/-- The grammatical reading of the spec's failure rule ("discard this
completed-transaction entry and continue scanning"): identical to
`scan_completed_rev` except that a failed resolution keeps scanning the
older entries instead of breaking.  Used only to exhibit where the source
deviates from the spec. -/
def scan_continue_rev (o : PIDToolOracle) (e : Event) (next_pid : ℕ)
    (st : ProcessTreeState) :
    List CompletedBinderTransaction →
    List CompletedBinderTransaction × ProcessTreeState × ScanOutcome
  | [] => ([], st, .noMatch)
  | tx :: older =>
      if tx.target_pid = next_pid then
        let r := resolve_completed_tx o st tx next_pid
        if r.2 then (older, attribute_completed_tx r.1 tx e, .consumed tx)
        else
          let rec' := scan_continue_rev o e next_pid r.1 older
          (rec'.1, rec'.2)
      else
        let rec' := scan_continue_rev o e next_pid st older
        (tx :: rec'.1, rec'.2)

/-- The amended description of `get_util`: the probed index is
`ts - start_time - 1`; in `[0, len)` it reads the dense array directly,
in `[-len, 0)` it wraps to the end of the array (Python negative
indexing), and only outside `[-len, len)` does the caught `IndexError`
yield `0.0`. -/
def get_util_amended (t : CPUUtilizationTable) (ts : ℤ) : ℚ :=
  let i := ts - t.start_time - 1
  if 0 ≤ i ∧ i < t.utils.length then t.utils.getD i.toNat 0
  else if -(t.utils.length : ℤ) ≤ i ∧ i < 0 then t.utils.getD (i + t.utils.length).toNat 0
  else 0

/-! Concrete instances used by the counterexamples and witnesses below. -/

/-- A compiled utilization table with three filled cells starting at
time 100. -/
def cex_util_table : CPUUtilizationTable :=
  { core := 0, start_time := 100, last_event_time := 0, core_state := false
    events := [], utils := [10, 20, 30] }

/-- A GPU regression profile with unit voltage and `a1 = 1`,
`a2 = a3 = 0`, making the per-cycle energy of a full-utilization slice at
1 GHz exactly 1. -/
def gpu_profile_simple : GPURegressionProfile :=
  { GPU_voltages := fun _ => 1, a1 := 1, a2 := 0, a3 := 0 }

/-- One GPU slice: offset 0, duration 100, 1 GHz, utilization 1. -/
def gpu_slice_simple : CPUUtilizationSlice :=
  { start_time := 0, duration := 100, state := false, freq := 1000000000, util := 1 }

/-- A GPU table holding the single slice `gpu_slice_simple`. -/
def gpu_table_simple : GPUUtilizationTable :=
  { start_time := 0, last_event_time := 0, current_util := 0, finish_time := 0
    events := [gpu_slice_simple] }

/-- The folded table produced by three idle events at times 10, 30, 60
(first event state 0, later events state 1) at frequency 1000. -/
def idle_table_witness : CPUUtilizationTable :=
  { core := 0, start_time := 10, last_event_time := 50, core_state := true
    events := [{ start_time := 0, duration := 19, state := true, freq := 1000, util := 100 },
               { start_time := 20, duration := 29, state := true, freq := 1000, util := 100 }]
    utils := [] }

/-- A classifier oracle that resolves every PID except 42 (whose lookup
fails) and knows no child binder threads. -/
def cex_oracle : PIDToolOracle :=
  { find_pid_info := fun n => if n == 42 then none else some ⟨n, "proc", "thread"⟩
    child_binder_threads := fun _ => [] }

/-- A metrics state with eight cores at frequency 1. -/
def cex_metrics : SystemMetricsState :=
  { current_core_freqs := [1, 1, 1, 1, 1, 1, 1, 1]
    current_core_utils := [0, 0, 0, 0, 0, 0, 0, 0]
    current_gpu_freq := 2
    current_gpu_util := 3
    gpu := { start_time := 0, last_event_time := 0, current_util := 0, finish_time := 0
             events := [] } }

/-- A binder CALL event from PID 100 targeting PID 200. -/
def c1_send_event_1 : Event :=
  { time := 1, pid := 100, cpu := 0, cpu_freq := (0, 0), gpu_freq := 0, gpu_util := 0
    kind := .binderTransaction .CALL 200 }

/-- A binder CALL event from PID 101 targeting PID 200. -/
def c1_send_event_2 : Event :=
  { time := 2, pid := 101, cpu := 0, cpu_freq := (0, 0), gpu_freq := 0, gpu_util := 0
    kind := .binderTransaction .CALL 200 }

/-- A pending first half whose binder-thread children contain PID 5. -/
def c1_pending_1 : FirstHalfBinderTransaction :=
  { send_event := c1_send_event_1, parent_pid := 100, child_pids := [5, 6] }

/-- A second pending first half whose binder-thread children also contain
PID 5. -/
def c1_pending_2 : FirstHalfBinderTransaction :=
  { send_event := c1_send_event_2, parent_pid := 101, child_pids := [5, 7] }

/-- A binder REPLY event sent by binder thread 5. -/
def c1_reply_event : Event :=
  { time := 3, pid := 5, cpu := 0, cpu_freq := (0, 0), gpu_freq := 0, gpu_util := 0
    kind := .binderTransaction .REPLY 0 }

/-- A tree state whose pending queue holds two first halves that both
match a reply from PID 5 (a tracked binder PID). -/
def c1_state : ProcessTreeState :=
  { pidtracer := { app_pids := [(100, ⟨100, "app", "main"⟩), (101, ⟨101, "app", "worker"⟩)]
                   system_pids := []
                   binder_pids := [(5, ⟨5, "binder", "Binder:5_1"⟩)] }
    process_branches := [100, 101]
    binder_branches := []
    pending_binder_calls := [c1_pending_1, c1_pending_2]
    completed_binder_calls := []
    actions := [] }

/-- A binder event helper for the switch-in scan examples. -/
def c3_event_of (p target : ℕ) (tt : BinderType) : Event :=
  { time := 1, pid := p, cpu := 0, cpu_freq := (0, 0), gpu_freq := 0, gpu_util := 0
    kind := .binderTransaction tt target }

/-- An older completed transaction targeting PID 7 whose binder thread 55
is already known (resolution succeeds). -/
def c3_tx_old : CompletedBinderTransaction :=
  { transaction_type := .CALL, caller_pid := 100, target_pid := 7, binder_thread := 55
    first_half := some (c3_event_of 100 7 .CALL), second_half := c3_event_of 55 7 .REPLY }

/-- A newer completed transaction targeting PID 7 whose binder thread 42
is unknown and whose classifier lookup fails. -/
def c3_tx_new : CompletedBinderTransaction :=
  { transaction_type := .CALL, caller_pid := 101, target_pid := 7, binder_thread := 42
    first_half := some (c3_event_of 101 7 .CALL), second_half := c3_event_of 42 7 .REPLY }

/-- A tree state whose completed queue is `[c3_tx_old, c3_tx_new]` (the
newer entry last). -/
def c3_state : ProcessTreeState :=
  { pidtracer := { app_pids := [(7, ⟨7, "app", "main"⟩)], system_pids := [], binder_pids := [] }
    process_branches := [7, 100, 101]
    binder_branches := [55]
    pending_binder_calls := []
    completed_binder_calls := [c3_tx_old, c3_tx_new]
    actions := [] }

/-- A scheduler switch event whose incoming PID is 7. -/
def c3_switch_event : Event :=
  { time := 9, pid := 3, cpu := 0, cpu_freq := (0, 0), gpu_freq := 0, gpu_util := 0
    kind := .schedSwitch 7 }

/-- A scheduler switch event: tracked PID 100 switching out, untracked
PID 999 switching in. -/
def c4_event : Event :=
  { time := 5, pid := 100, cpu := 4, cpu_freq := (0, 0), gpu_freq := 0, gpu_util := 0
    kind := .schedSwitch 999 }

/-- A tree state tracking app PID 100 (with a branch); PID 999 is
untracked. -/
def c4_state : ProcessTreeState :=
  { pidtracer := { app_pids := [(100, ⟨100, "app", "main"⟩)], system_pids := [], binder_pids := [] }
    process_branches := [100]
    binder_branches := []
    pending_binder_calls := []
    completed_binder_calls := []
    actions := [] }

/-- A big-core task with 50 estimated cycles, little frequency 100,
start time 0, and a dependent successor starting at 6,000,000. -/
def c5_task : B2LTask :=
  { cpu_cycles := 50, cpu := 4, cpu_freq_little := 100, start_time := 0
    depender_start_time := some 6000000 }

deriving instance DecidableEq for Except

/-! Theorems. -/

/-- C6, counterexample: at `ts = 100` the table starting at time 100 with
filled cells `[10, 20, 30]` is probed at Python index `-1`, so `get_util`
returns the *last* cell, `30`, while the claim's reading (value at offset
`ts - start_time = 0` of the filled range) yields the first cell, `10` —
not `0.0` and not the claimed cell. -/
theorem C6_counterexample :
    CPUUtilizationTable.get_util cex_util_table 100 = 30 ∧
    get_util_claim cex_util_table 100 = 10 ∧ (30 : ℚ) ≠ 10 := by
  refine ⟨by decide, by decide, by norm_num⟩

/-- C6, amended: `get_util ts` reads the dense array at index
`ts - start_time - 1` (one less than the claimed offset); an index in
`[0, len)` reads directly, an index in `[-len, 0)` wraps to the end of
the array (Python negative indexing) instead of returning `0.0`, and
only indices outside `[-len, len)` return `0.0` via the caught
`IndexError`. -/
theorem C6_theorem (t : CPUUtilizationTable) (ts : ℤ) :
    t.get_util ts = get_util_amended t ts := by
  unfold CPUUtilizationTable.get_util get_util_amended py_list_get
  by_cases h0 : (0 : ℤ) ≤ ts - t.start_time - 1
  · rw [if_pos h0]
    by_cases h1 : ts - t.start_time - 1 < t.utils.length
    · rw [if_pos ⟨h0, h1⟩, List.getD_eq_getD_get?]
    · rw [if_neg (by omega : ¬((0 : ℤ) ≤ ts - t.start_time - 1 ∧
        ts - t.start_time - 1 < t.utils.length))]
      rw [if_neg (by omega : ¬(-(t.utils.length : ℤ) ≤ ts - t.start_time - 1 ∧
        ts - t.start_time - 1 < 0))]
      rw [List.get?_eq_none.mpr (by omega : t.utils.length ≤ (ts - t.start_time - 1).toNat)]
      rfl
  · rw [if_neg h0]
    rw [if_neg (by omega : ¬((0 : ℤ) ≤ ts - t.start_time - 1 ∧
      ts - t.start_time - 1 < t.utils.length))]
    by_cases h2 : (0 : ℤ) ≤ ts - t.start_time - 1 + t.utils.length
    · rw [if_pos h2]
      rw [if_pos (by omega : -(t.utils.length : ℤ) ≤ ts - t.start_time - 1 ∧
        ts - t.start_time - 1 < 0)]
      rw [List.getD_eq_getD_get?]
    · rw [if_neg h2]
      rw [if_neg (by omega : ¬(-(t.utils.length : ℤ) ≤ ts - t.start_time - 1 ∧
        ts - t.start_time - 1 < 0))]
      rfl

/-- C9: before any dispatch, `handle_event` overwrites exactly the event's
little/big cluster frequencies (with the current frequencies of cores 0
and 4), its GPU frequency, and its GPU utilization; the event's time,
PID, CPU and kind-specific payload are untouched, and dispatch then runs
on the mutated event. -/
theorem C9_theorem (m : SystemMetricsState) (e : Event) :
    (set_event_freqs m e).cpu_freq = (get_cpu_core_freq m 0, get_cpu_core_freq m 4) ∧
    (set_event_freqs m e).gpu_freq = m.current_gpu_freq ∧
    (set_event_freqs m e).gpu_util = m.current_gpu_util ∧
    (set_event_freqs m e).time = e.time ∧
    (set_event_freqs m e).pid = e.pid ∧
    (set_event_freqs m e).cpu = e.cpu ∧
    (set_event_freqs m e).kind = e.kind ∧
    (∀ o st, handle_event o m st e = dispatch_event o m st (set_event_freqs m e)) :=
  ⟨rfl, rfl, rfl, rfl, rfl, rfl, rfl, fun _ _ => rfl⟩

unseal Rat.add Rat.mul Rat.inv Rat.sub in
/-- C7: on a table with a single slice (offset 0, duration 100, 1 GHz,
utilization 1, per-cycle energy 1) the integration over `[10, 90]` gives
90, but `[10, 50]` also gives 90 and `[50, 90]` gives 50: the split sum
is 140 ≠ 90, so `get_energy` is not additive over a split point (the
start-overlap branch integrates to the slice's end regardless of the
finish time, and the end-overlap branch uses the complement of the
overlap). -/
theorem C7_theorem :
    gpu_table_simple.get_energy (fun _ => 1) gpu_profile_simple 10 90 = .ok 90 ∧
    gpu_table_simple.get_energy (fun _ => 1) gpu_profile_simple 10 50 = .ok 90 ∧
    gpu_table_simple.get_energy (fun _ => 1) gpu_profile_simple 50 90 = .ok 50 ∧
    (90 : ℚ) ≠ 90 + 50 := by
  refine ⟨by decide, by decide, by decide, by norm_num⟩

/-- C4: a switch event whose outgoing PID 100 is a tracked, non-idle app
PID with a branch, but whose incoming PID 999 is untracked, appends *no*
scheduled-out marker (the source guards the switch-out on the incoming
PID's tracking status), contradicting "regardless of which PID is
switching in". -/
theorem C4_theorem :
    c4_event.pid ≠ 0 ∧
    dict_contains c4_state.pidtracer.app_pids c4_event.pid = true ∧
    c4_state.process_branches.contains c4_event.pid = true ∧
    (handle_event cex_oracle cex_metrics c4_state c4_event).2.1.actions = [] := by
  refine ⟨by decide, by decide, by decide, by decide⟩

/-- C1, counterexample: a single reply from tracked binder PID 5, with two
pending first halves both matching PID 5, consumes *both* pending entries
and appends *two* completed transactions — the loop has no `break`, so a
single reply event does not consume at most one pending entry. -/
theorem C1_counterexample :
    c1_state.pending_binder_calls.length = 2 ∧
    (handle_event cex_oracle cex_metrics c1_state c1_reply_event).2.1.pending_binder_calls = [] ∧
    (handle_event cex_oracle cex_metrics c1_state c1_reply_event).2.1.completed_binder_calls.length = 2 ∧
    ¬(2 ≤ 1) := by
  refine ⟨by decide, by decide, by decide, by norm_num⟩

unseal Rat.add Rat.mul Rat.inv Rat.sub in
/-- C5, counterexample: little utilizations `[90, 90, 90, 90]` at current
little frequency 100, candidate list `[100]`, migration factor 1, task
cycles 50 on a big core, successor at 6,000,000.  The source's check
passes (existing utilizations stay ≤ 100 and the finish time 5,000,000
precedes the successor) and tags the frequency 100, although adding the
task's scaled cost pushes the target core to 140% — so the claim's
"utilizations computed after hypothetically adding the task's cost stay
at most 100%" does not describe the code. -/
theorem C5_counterexample :
    b2l_realloc_freq [100] 1 [90, 90, 90, 90] c5_task = .ok (some 100) ∧
    b2l_realloc_freq_claim [100] 1 [90, 90, 90, 90] c5_task = none := by
  refine ⟨by decide, by decide⟩

/-- The reply-matching loop removes exactly the matching pending entries
and returns them most-recent-first. -/
theorem reply_scan_eq_filter (pid : ℕ) (l : List FirstHalfBinderTransaction) :
    reply_scan pid l =
      (l.filter (fun fh => !(fh.child_pids.any (fun p => p == pid) || fh.parent_pid == pid)),
       (l.filter (fun fh => fh.child_pids.any (fun p => p == pid) || fh.parent_pid == pid)).reverse) := by
  induction l with
  | nil => rfl
  | cons fh rest ih =>
      cases hb : (fh.child_pids.any (fun p => p == pid) || fh.parent_pid == pid) with
      | true =>
          simp [reply_scan, ih, List.filter_cons, hb]
          simp only [Bool.or_eq_true, List.any_eq_true, beq_iff_eq] at hb
          rw [if_neg]
          rintro ⟨hall, hp⟩
          rcases hb with ⟨x, hx, rfl⟩ | rfl
          · exact hall x hx rfl
          · exact hp rfl
      | false =>
          simp [reply_scan, ih, List.filter_cons, hb]
          simp only [Bool.or_eq_false_iff, List.any_eq_false, beq_iff_eq,
            beq_eq_false_iff_ne] at hb
          rw [if_pos]
          exact ⟨hb.1, hb.2⟩

/-- C1, amended: a reply event from a tracked system or binder PID removes
*every* matching pending first half (each exactly once), not at most one
— the loop has no `break` — and appends exactly one completed
transaction per removed entry, in most-recent-first match order; the
handler returns 0. -/
theorem C1_theorem (o : PIDToolOracle) (st : ProcessTreeState) (e : Event)
    (h : dict_contains st.pidtracer.system_pids e.pid ∨
         dict_contains st.pidtracer.binder_pids e.pid) :
    (handle_binder_transaction o st e .REPLY e.target_pid).1.pending_binder_calls =
      st.pending_binder_calls.filter
        (fun fh => !(fh.child_pids.any (fun p => p == e.pid) || fh.parent_pid == e.pid)) ∧
    (handle_binder_transaction o st e .REPLY e.target_pid).1.completed_binder_calls =
      st.completed_binder_calls ++
        ((st.pending_binder_calls.filter
            (fun fh => fh.child_pids.any (fun p => p == e.pid) || fh.parent_pid == e.pid)).reverse.map
          (fun fh => CompletedBinderTransaction.ofReply e fh.send_event)) ∧
    (handle_binder_transaction o st e .REPLY e.target_pid).2 = some 0 := by
  unfold handle_binder_transaction
  rw [if_pos h]
  refine ⟨?_, ?_, rfl⟩ <;> simp [reply_scan_eq_filter]

/-- Closed instance of `C1_theorem`: the reply from binder PID 5 empties
the two-entry pending queue of `c1_state`. -/
theorem C1_witness :
    (dict_contains c1_state.pidtracer.system_pids c1_reply_event.pid ∨
     dict_contains c1_state.pidtracer.binder_pids c1_reply_event.pid) ∧
    (handle_binder_transaction cex_oracle c1_state c1_reply_event .REPLY
        c1_reply_event.target_pid).1.pending_binder_calls =
      c1_state.pending_binder_calls.filter
        (fun fh => !(fh.child_pids.any (fun p => p == c1_reply_event.pid) ||
          fh.parent_pid == c1_reply_event.pid)) :=
  ⟨Or.inr (by decide), (C1_theorem cex_oracle c1_state c1_reply_event (Or.inr (by decide))).1⟩

/-- Case analysis of the completed-transaction scan on the
most-recent-first view: either nothing matches and the queue and state
are unchanged, or the list splits around the first (most recent) match,
which is deleted, with the outcome recording whether it was consumed or
discarded. -/
theorem scan_completed_rev_characterization (o : PIDToolOracle) (e : Event) (p : ℕ)
    (st : ProcessTreeState) (l : List CompletedBinderTransaction) :
    ((∀ tx ∈ l, tx.target_pid ≠ p) ∧
      (scan_completed_rev o e p st l).1 = l ∧
      (scan_completed_rev o e p st l).2.2 = ScanOutcome.noMatch) ∨
    (∃ pre tx post,
      l = pre ++ tx :: post ∧ (∀ tx2 ∈ pre, tx2.target_pid ≠ p) ∧ tx.target_pid = p ∧
      (scan_completed_rev o e p st l).1 = pre ++ post ∧
      ((scan_completed_rev o e p st l).2.2 = ScanOutcome.consumed tx ∨
       (scan_completed_rev o e p st l).2.2 = ScanOutcome.discarded tx)) := by
  induction l with
  | nil => exact Or.inl ⟨by simp, rfl, rfl⟩
  | cons tx older ih =>
      by_cases h : tx.target_pid = p
      · right
        refine ⟨[], tx, older, by simp, by simp, h, ?_, ?_⟩
        · simp only [scan_completed_rev, if_pos h]
          by_cases hr : (resolve_completed_tx o st tx p).2 <;> simp [hr]
        · simp only [scan_completed_rev, if_pos h]
          by_cases hr : (resolve_completed_tx o st tx p).2 <;> simp [hr]
      · rcases ih with ⟨hall, h1, h2⟩ | ⟨pre, tx', post, heq, hpre, htx', h1, hout⟩
        · refine Or.inl ⟨?_, ?_, ?_⟩
          · intro tx2 htx2
            rcases List.mem_cons.mp htx2 with rfl | hm
            · exact h
            · exact hall _ hm
          · simp only [scan_completed_rev, if_neg h]
            rw [h1]
          · simpa only [scan_completed_rev, if_neg h] using h2
        · refine Or.inr ⟨tx :: pre, tx', post, by rw [heq, List.cons_append], ?_, htx', ?_, ?_⟩
          · intro tx2 htx2
            rcases List.mem_cons.mp htx2 with rfl | hm
            · exact h
            · exact hpre _ hm
          · simp only [scan_completed_rev, if_neg h]
            rw [h1, List.cons_append]
          · simpa only [scan_completed_rev, if_neg h] using hout

/-- C2: one switch-in event consumes at most one completed-transaction
entry.  Either no queue entry targets the incoming PID and the queue is
unchanged with outcome `noMatch`, or the queue splits as
`front ++ tx :: back` around the most recent entry targeting the PID
(nothing in `back`, the more recently pushed part, matches), exactly
that entry is deleted at that moment, and the outcome records it as the
single consumed (or, after a failed lookup, discarded) entry. -/
theorem C2_theorem (o : PIDToolOracle) (e : Event) (p : ℕ) (st : ProcessTreeState) :
    ((scan_completed_calls o e p st).1.completed_binder_calls = st.completed_binder_calls ∧
      (scan_completed_calls o e p st).2 = ScanOutcome.noMatch) ∨
    (∃ front tx back,
      st.completed_binder_calls = front ++ tx :: back ∧
      tx.target_pid = p ∧ (∀ tx2 ∈ back, tx2.target_pid ≠ p) ∧
      (scan_completed_calls o e p st).1.completed_binder_calls = front ++ back ∧
      ((scan_completed_calls o e p st).2 = ScanOutcome.consumed tx ∨
       (scan_completed_calls o e p st).2 = ScanOutcome.discarded tx)) := by
  rcases scan_completed_rev_characterization o e p st st.completed_binder_calls.reverse with
    ⟨hall, h1, h2⟩ | ⟨pre, tx, post, heq, hpre, htx, h1, hout⟩
  · left
    constructor
    · show (scan_completed_rev o e p st st.completed_binder_calls.reverse).1.reverse = _
      rw [h1, List.reverse_reverse]
    · exact h2
  · right
    refine ⟨post.reverse, tx, pre.reverse, ?_, htx, ?_, ?_, hout⟩
    · have hrev := congrArg List.reverse heq
      rw [List.reverse_reverse] at hrev
      rw [hrev]
      simp
    · intro tx2 h2
      exact hpre _ (List.mem_reverse.mp h2)
    · show (scan_completed_rev o e p st st.completed_binder_calls.reverse).1.reverse = _
      rw [h1]
      simp

/-- In every branch of the scheduler-switch handler the source reaches a
`return 0`: dispatching a switch event never aborts processing. -/
theorem handle_sched_switch_returns (o : PIDToolOracle) (st : ProcessTreeState)
    (e : Event) (p : ℕ) : (handle_sched_switch o st e p).2 = some 0 := by
  unfold handle_sched_switch
  repeat' first | rfl | split | dsimp only

/-- Walking the most-recent-first view past non-matching entries down to a
matching entry whose resolution fails deletes exactly that entry and
stops with outcome `discarded`. -/
theorem scan_rev_reaches_discard (o : PIDToolOracle) (e : Event) (p : ℕ)
    (st : ProcessTreeState) (tx : CompletedBinderTransaction)
    (older : List CompletedBinderTransaction)
    (hmatch : tx.target_pid = p)
    (hfail : (resolve_completed_tx o st tx p).2 = false) :
    ∀ newer : List CompletedBinderTransaction, (∀ tx2 ∈ newer, tx2.target_pid ≠ p) →
    scan_completed_rev o e p st (newer ++ tx :: older) =
      (newer ++ older, (resolve_completed_tx o st tx p).1, ScanOutcome.discarded tx) := by
  intro newer
  induction newer with
  | nil =>
      intro _
      simp only [List.nil_append, scan_completed_rev, if_pos hmatch, hfail]
      rfl
  | cons tx2 rest ih =>
      intro hall
      have h2 : tx2.target_pid ≠ p := hall tx2 (List.mem_cons_self tx2 rest)
      simp only [List.cons_append, scan_completed_rev, if_neg h2, List.append_eq]
      rw [ih (fun tx3 h3 => hall tx3 (List.mem_cons_of_mem tx2 h3))]

/-- C3, amended: when the most recent completed-transaction entry
targeting the incoming PID fails PID resolution, exactly that entry is
discarded and the scan *stops* (it does not continue over the older
entries; the switch-in is then handled as an ordinary task start), and
the switch handler still returns 0 — processing of the remaining event
stream is not aborted. -/
theorem C3_theorem (o : PIDToolOracle) (e : Event) (p : ℕ) (st : ProcessTreeState)
    (front back : List CompletedBinderTransaction) (tx : CompletedBinderTransaction)
    (hq : st.completed_binder_calls = front ++ tx :: back)
    (hmatch : tx.target_pid = p)
    (hnomatch : ∀ tx2 ∈ back, tx2.target_pid ≠ p)
    (hfail : (resolve_completed_tx o st tx p).2 = false) :
    (scan_completed_calls o e p st).1.completed_binder_calls = front ++ back ∧
    (scan_completed_calls o e p st).2 = ScanOutcome.discarded tx ∧
    (∀ tx2, (scan_completed_calls o e p st).2 ≠ ScanOutcome.consumed tx2) ∧
    (handle_sched_switch o st e p).2 = some 0 := by
  have hrev : st.completed_binder_calls.reverse = back.reverse ++ tx :: front.reverse := by
    rw [hq]
    simp
  have hscan := scan_rev_reaches_discard o e p st tx front.reverse hmatch hfail
    back.reverse (fun tx2 h2 => hnomatch tx2 (List.mem_reverse.mp h2))
  refine ⟨?_, ?_, ?_, handle_sched_switch_returns o st e p⟩
  · show (scan_completed_rev o e p st st.completed_binder_calls.reverse).1.reverse = _
    rw [hrev, hscan]
    simp
  · show (scan_completed_rev o e p st st.completed_binder_calls.reverse).2.2 = _
    rw [hrev, hscan]
  · intro tx2
    show (scan_completed_rev o e p st st.completed_binder_calls.reverse).2.2 ≠ _
    rw [hrev, hscan]
    simp

/-- C3, counterexample: with completed queue `[c3_tx_old, c3_tx_new]`
(both targeting the incoming PID 7, the newer entry's binder-thread
lookup failing, the older entry resolvable), the source discards the
newer entry and stops — the older matching entry is *not* consumed and
stays in the queue — whereas the spec's "continue scanning" semantics
(`scan_continue_rev`) would consume the older entry. -/
theorem C3_counterexample :
    (scan_completed_calls cex_oracle c3_switch_event 7 c3_state).1.completed_binder_calls =
      [c3_tx_old] ∧
    (scan_completed_calls cex_oracle c3_switch_event 7 c3_state).2 =
      ScanOutcome.discarded c3_tx_new ∧
    c3_tx_old.target_pid = 7 ∧
    (scan_completed_calls cex_oracle c3_switch_event 7 c3_state).2 ≠
      ScanOutcome.consumed c3_tx_old ∧
    (scan_continue_rev cex_oracle c3_switch_event 7 c3_state [c3_tx_new, c3_tx_old]).2.2 =
      ScanOutcome.consumed c3_tx_old := by
  refine ⟨by decide, by decide, by decide, by decide, by decide⟩

/-- Closed instance of `C3_theorem` at the two-entry queue of `c3_state`. -/
theorem C3_witness :
    c3_state.completed_binder_calls = [c3_tx_old] ++ c3_tx_new :: [] ∧
    c3_tx_new.target_pid = 7 ∧
    (resolve_completed_tx cex_oracle c3_state c3_tx_new 7).2 = false ∧
    (scan_completed_calls cex_oracle c3_switch_event 7 c3_state).1.completed_binder_calls =
      [c3_tx_old] ++ [] :=
  ⟨by decide, by decide, by decide,
   (C3_theorem cex_oracle c3_switch_event 7 c3_state [c3_tx_old] [] c3_tx_new
      (by decide) (by decide) (by simp) (by decide)).1⟩


/-- When no candidate frequency triggers the `ZeroDivisionError`, the
candidate-frequency loop returns exactly the first frequency satisfying
`b2l_code_pred` (and `none` when no frequency does). -/
theorem b2l_loop_eq_find (little_cores : List ℚ) (idx : ℕ) (cur cycles : ℚ)
    (start : ℤ) (dep : Option ℤ) :
    ∀ lf : List ℚ, (∀ f ∈ lf, b2l_avail_zero little_cores idx cur f = false) →
    b2l_loop little_cores idx cur cycles start dep lf =
      Except.ok (lf.find? (b2l_code_pred little_cores idx cur cycles start dep)) := by
  intro lf
  induction lf with
  | nil => intro _; rfl
  | cons f fs ih =>
      intro h
      have hf := h f (List.mem_cons_self f fs)
      have hfs := fun g hg => h g (List.mem_cons_of_mem f hg)
      unfold b2l_avail_zero at hf
      dsimp only at hf
      cases hall : (if cur ≠ f then little_cores.map (fun core => core * (cur / f))
          else little_cores).all (fun core_util => decide (core_util ≤ 100)) with
      | false =>
          have hpf : b2l_code_pred little_cores idx cur cycles start dep f = false := by
            unfold b2l_code_pred
            dsimp only
            rw [hall]
            rfl
          rw [List.find?_cons_of_neg _ (by simp [hpf])]
          unfold b2l_loop
          dsimp only
          rw [hall]
          simp only [Bool.false_eq_true, if_false]
          exact ih hfs
      | true =>
          have havail : ¬ ((py_round ((1 - (if cur ≠ f then
              little_cores.map (fun core => core * (cur / f)) else little_cores).getD idx 0 / 100)
              * f) : ℚ) = 0) := by
            rw [hall] at hf
            simpa using hf
          unfold b2l_loop
          dsimp only
          rw [hall]
          simp only [if_pos rfl]
          rw [if_neg havail]
          cases dep with
          | none =>
              have hpf : b2l_code_pred little_cores idx cur cycles start none f = false := by
                unfold b2l_code_pred
                dsimp only
                rw [hall]
                rfl
              rw [List.find?_cons_of_neg _ (by simp [hpf])]
              exact ih hfs
          | some ds =>
              cases hlt : decide (py_round ((start : ℚ) + cycles /
                  ((py_round ((1 - (if cur ≠ f then
                    little_cores.map (fun core => core * (cur / f)) else little_cores).getD idx 0 / 100)
                    * f) : ℚ)) * 1000000) < ds) with
              | true =>
                  have hpf : b2l_code_pred little_cores idx cur cycles start (some ds) f = true := by
                    unfold b2l_code_pred
                    dsimp only
                    rw [hall, hlt]
                    rfl
                  rw [List.find?_cons_of_pos _ hpf]
                  simp only [if_true]
                  rw [if_pos (of_decide_eq_true hlt)]
              | false =>
                  have hpf : b2l_code_pred little_cores idx cur cycles start (some ds) f = false := by
                    unfold b2l_code_pred
                    dsimp only
                    rw [hall, hlt]
                    rfl
                  rw [List.find?_cons_of_neg _ (by simp [hpf])]
                  simp only [if_true]
                  rw [if_neg (of_decide_eq_false hlt)]
                  exact ih hfs

/-- C5, amended: for a big-core task with nonzero estimated cycles (and no
candidate frequency raising `ZeroDivisionError`), `B2L_REALLOC` is tagged
exactly at the first candidate frequency, scanned lowest to highest, at
which the *existing* little-core utilizations rescaled to that frequency
all stay ≤ 100 (the task's own migration-scaled cost is computed for
reporting but not included in this feasibility test) and the computed
finish time precedes the dependent successor's start; tasks without a
dependent successor are never tagged. -/
theorem C5_theorem (lf : List ℚ) (mf : ℚ) (little_utils : List ℚ) (t : B2LTask)
    (h : ∀ f ∈ lf, b2l_avail_zero little_utils (np_argmin little_utils)
      t.cpu_freq_little f = false) :
    b2l_realloc_freq lf mf little_utils t =
      Except.ok (if t.cpu_cycles = 0 then none
        else if !(decide (3 < t.cpu)) then none
        else lf.find? (b2l_code_pred little_utils (np_argmin little_utils) t.cpu_freq_little
          ((py_round (t.cpu_cycles * mf)) : ℚ) t.start_time t.depender_start_time)) := by
  unfold b2l_realloc_freq
  by_cases h0 : t.cpu_cycles = 0
  · rw [if_pos h0, if_pos h0]
  · rw [if_neg h0, if_neg h0]
    by_cases h1 : (!(decide (3 < t.cpu))) = true
    · rw [if_pos h1, if_pos h1]
    · rw [if_neg h1, if_neg h1]
      exact b2l_loop_eq_find little_utils (np_argmin little_utils) t.cpu_freq_little
        ((py_round (t.cpu_cycles * mf)) : ℚ) t.start_time t.depender_start_time lf h

unseal Rat.add Rat.mul Rat.inv Rat.sub in
/-- Closed instance of `C5_theorem` at the counterexample input: the
hypothesis holds (the available cycle budget is 10, not 0) and the first
feasible frequency is 100. -/
theorem C5_witness :
    (∀ f ∈ [(100 : ℚ)], b2l_avail_zero [90, 90, 90, 90] (np_argmin [90, 90, 90, 90])
      c5_task.cpu_freq_little f = false) ∧
    b2l_realloc_freq [100] 1 [90, 90, 90, 90] c5_task = Except.ok (some 100) := by
  constructor
  · decide
  · rw [C5_theorem [100] 1 [90, 90, 90, 90] c5_task (by decide)]
    decide

/-- The event loop over a concatenation: if the prefix stops, its result
is final; otherwise the walk continues on the suffix with the reached
accumulator. -/
theorem energy_go_append (gt : ℤ → ℚ) (p : GPURegressionProfile) (ts rs rf : ℤ) :
    ∀ (l1 l2 : List CPUUtilizationSlice) (acc : ℚ),
    energy_go gt p ts rs rf (l1 ++ l2) acc =
      (match energy_go_pre gt p ts rs rf l1 acc with
       | .done r => r
       | .cont a => energy_go gt p ts rs rf l2 a) := by
  intro l1
  induction l1 with
  | nil => intro l2 acc; rfl
  | cons ev rest ih =>
      intro l2 acc
      simp only [List.cons_append, energy_go, energy_go_pre]
      cases h : energy_step gt p ts rs rf acc ev with
      | done r => rfl
      | cont a => exact ih l2 a

/-- A slice satisfying `energy_step_fails` makes the per-event step stop
the integration with an error, for every accumulator. -/
theorem energy_step_fails_error (gt : ℤ → ℚ) (p : GPURegressionProfile)
    (ts rs rf : ℤ) (acc : ℚ) (ev : CPUUtilizationSlice)
    (h : energy_step_fails gt p ts rs rf ev = true) :
    ∃ msg, energy_step gt p ts rs rf acc ev = .done (.error msg) := by
  unfold energy_step_fails at h
  unfold energy_step
  dsimp only at h ⊢
  by_cases h1 : gt (ev.start_time + ts) = 0
  · rw [if_pos h1]
    exact ⟨_, rfl⟩
  · rw [if_neg h1] at h ⊢
    by_cases h2 : get_gpu_cycle_energy p ev.freq ev.util (gt (ev.start_time + ts)) / ev.freq = 0
    · rw [if_pos h2]
      exact ⟨_, rfl⟩
    · rw [if_neg h2] at h ⊢
      by_cases h3 : rs ≥ ev.start_time ∧ rs < ev.start_time + ev.duration
      · rw [if_pos h3] at h ⊢
        rw [if_pos (of_decide_eq_true h)]
        exact ⟨_, rfl⟩
      · rw [if_neg h3] at h ⊢
        by_cases h4 : rf ≥ ev.start_time ∧ rf < ev.start_time + ev.duration
        · rw [if_pos h4] at h ⊢
          rw [if_pos (of_decide_eq_true h)]
          exact ⟨_, rfl⟩
        · rw [if_neg h4] at h ⊢
          by_cases h5 : rs < ev.start_time ∧ rf > ev.start_time + ev.duration
          · rw [if_pos h5] at h ⊢
            rw [if_pos (of_decide_eq_true h)]
            exact ⟨_, rfl⟩
          · rw [if_neg h5] at h
            simp at h

/-- C8: whenever the walk of `get_energy` reaches a slice at which the
looked-up temperature is zero, or whose per-cycle energy is zero, or
whose overlap-branch cycle count is zero (`energy_step_fails`), the whole
integration returns an error naming the offending values — it never
returns an `ok` result that silently integrated that slice to zero. -/
theorem C8_theorem (gt : ℤ → ℚ) (p : GPURegressionProfile)
    (t : GPUUtilizationTable) (s f : ℤ)
    (pre post : List CPUUtilizationSlice) (ev : CPUUtilizationSlice) (acc : ℚ)
    (hf : f ≠ 0)
    (hev : t.events = pre ++ ev :: post)
    (hreach : energy_go_pre gt p t.start_time (relative_times t s f).1
      (relative_times t s f).2 pre 0 = .cont acc)
    (hfail : energy_step_fails gt p t.start_time (relative_times t s f).1
      (relative_times t s f).2 ev = true) :
    ∃ msg, t.get_energy gt p s f = Except.error msg := by
  obtain ⟨msg, hstep⟩ := energy_step_fails_error gt p t.start_time
    (relative_times t s f).1 (relative_times t s f).2 acc ev hfail
  refine ⟨msg, ?_⟩
  unfold GPUUtilizationTable.get_energy
  rw [if_neg hf, hev, energy_go_append, hreach]
  simp only [energy_go, hstep]

/-- Closed instance of `C8_theorem`: integrating `gpu_table_simple` under
a temperature table that reports zero ends in an error. -/
theorem C8_witness :
    energy_step_fails (fun _ => 0) gpu_profile_simple gpu_table_simple.start_time
      (relative_times gpu_table_simple 10 50).1 (relative_times gpu_table_simple 10 50).2
      gpu_slice_simple = true ∧
    (∃ msg, gpu_table_simple.get_energy (fun _ => 0) gpu_profile_simple 10 50 =
      Except.error msg) := by
  constructor
  · decide
  · exact C8_theorem (fun _ => 0) gpu_profile_simple gpu_table_simple 10 50 [] []
      gpu_slice_simple 0 (by decide) rfl rfl (by decide)

/-- Source `calc_util_last_event` only rewrites the utilization of the most
recent slice: core, start time, last event offset, the slices' start
offsets and the slice count are all preserved. -/
theorem calc_util_last_event_preserves (t t' : CPUUtilizationTable)
    (h : t.calc_util_last_event = .ok t') :
    t'.core = t.core ∧ t'.start_time = t.start_time ∧
    t'.last_event_time = t.last_event_time ∧ t'.core_state = t.core_state ∧
    t'.events.map (fun s => s.start_time) = t.events.map (fun s => s.start_time) ∧
    t'.events.length = t.events.length := by
  unfold CPUUtilizationTable.calc_util_last_event at h
  dsimp only at h
  split at h
  · cases h
  · cases hl : t.events.getLast? with
    | none => rw [hl] at h; cases h
    | some last =>
        rw [hl] at h
        have hne : t.events ≠ [] := by
          intro h0
          rw [h0] at hl
          cases hl
        have hlast : last = t.events.getLast hne := by
          have := List.getLast?_eq_getLast t.events hne
          rw [hl] at this
          injection this
        injection h with h2
        subst h2
        refine ⟨rfl, rfl, rfl, rfl, ?_, ?_⟩
        · show (t.events.dropLast ++ [_]).map _ = _
          conv_rhs => rw [(List.dropLast_append_getLast hne).symm]
          rw [List.map_append, List.map_append]
          rw [hlast]
          rfl
        · show (t.events.dropLast ++ [_]).length = _
          rw [List.length_append, List.length_dropLast]
          have hpos : 0 < t.events.length := List.length_pos.mpr hne
          simp only [List.length_singleton]
          omega

/-- One non-first idle event appends exactly one slice, starting at the
previous event's offset, and moves `last_event_time` to this event's
offset. -/
theorem add_idle_event_step (freq : ℚ) (t : CPUUtilizationTable) (e : EventIdle)
    (t' : CPUUtilizationTable) (h0 : ¬ t.start_time = 0)
    (h : t.add_idle_event freq e = .ok t') :
    t'.start_time = t.start_time ∧
    t'.last_event_time = e.time - t.start_time ∧
    t'.events.map (fun s => s.start_time) =
      t.events.map (fun s => s.start_time) ++ [t.last_event_time] ∧
    t'.events.length = t.events.length + 1 := by
  unfold CPUUtilizationTable.add_idle_event at h
  rw [if_neg h0] at h
  dsimp only at h
  cases hc : CPUUtilizationTable.calc_util_last_event
      { t with
        events := t.events ++
          [CPUUtilizationSlice.make t.last_event_time (e.time - t.start_time) freq t.core_state 0]
        last_event_time := e.time - t.start_time } with
  | error msg => rw [hc] at h; cases h
  | ok t2 =>
      rw [hc] at h
      injection h with h2
      subst h2
      obtain ⟨_, hs, hl, _, hm, hlen⟩ := calc_util_last_event_preserves _ t2 hc
      refine ⟨hs, hl, ?_, ?_⟩
      · rw [hm]
        simp [CPUUtilizationSlice.make]
      · rw [hlen]
        simp

/-- Folding any number of idle events into a table whose start time is
already set preserves the start time, appends one slice per event
(starting at the respective previous offsets), and grows the slice count
by the number of events. -/
theorem add_idle_events_inv (freq : ℚ) :
    ∀ (es : List EventIdle) (t t' : CPUUtilizationTable), ¬ t.start_time = 0 →
    add_idle_events freq t es = .ok t' →
    t'.start_time = t.start_time ∧
    t'.events.map (fun s => s.start_time) =
      t.events.map (fun s => s.start_time) ++ idle_offsets t.last_event_time t.start_time es ∧
    t'.events.length = t.events.length + es.length := by
  intro es
  induction es with
  | nil =>
      intro t t' h0 h
      unfold add_idle_events at h
      simp only [List.foldlM_nil] at h
      injection h with h2
      subst h2
      exact ⟨rfl, by simp [idle_offsets], by simp⟩
  | cons e rest ih =>
      intro t t' h0 h
      unfold add_idle_events at h
      rw [List.foldlM_cons] at h
      cases hstep : t.add_idle_event freq e with
      | error msg =>
          rw [hstep] at h
          cases h
      | ok t1 =>
          rw [hstep] at h
          obtain ⟨hs, hl, hm, hlen⟩ := add_idle_event_step freq t e t1 h0 hstep
          have h0' : ¬ t1.start_time = 0 := by rw [hs]; exact h0
          have hrest := ih t1 t' h0' h
          obtain ⟨hs', hm', hlen'⟩ := hrest
          refine ⟨by rw [hs', hs], ?_, ?_⟩
          · rw [hm', hm, hl, hs]
            simp [idle_offsets]
          · rw [hlen', hlen]
            simp [List.length_cons]
            omega

/-- The slice offsets of a run equal the offsets of all but the last
event of the run (each slice starts at the previous event's offset). -/
theorem idle_offsets_eq_dropLast (s : ℤ) :
    ∀ (es : List EventIdle) (prev : EventIdle),
    idle_offsets (prev.time - s) s es = ((prev :: es).dropLast).map (fun v => v.time - s) := by
  intro es
  induction es with
  | nil => intro prev; rfl
  | cons a rest ih =>
      intro prev
      show (prev.time - s) :: idle_offsets (a.time - s) s rest = _
      rw [ih a]
      rfl

/-- C10: on a fresh table, the first of `n` idle events (with a nonzero
timestamp — the source detects the first event by `start_time is 0`)
records the start time and appends nothing, and every later event appends
exactly one slice starting at the previous event's offset; a successful
run therefore leaves exactly `n - 1` slices whose start offsets are the
offsets of all but the last event. -/
theorem C10_theorem (freq : ℚ) (c : ℕ) (e : EventIdle) (es : List EventIdle)
    (t : CPUUtilizationTable) (h0 : ¬ e.time = 0)
    (h : add_idle_events freq (initial_cpu_table c) (e :: es) = .ok t) :
    t.start_time = e.time ∧
    t.events.length = (e :: es).length - 1 ∧
    t.events.map (fun s => s.start_time) =
      ((e :: es).dropLast).map (fun v => v.time - e.time) := by
  unfold add_idle_events at h
  rw [List.foldlM_cons] at h
  have hfirst : (initial_cpu_table c).add_idle_event freq e =
      .ok { initial_cpu_table c with
            start_time := e.time
            core_state := if e.state = 4294967295 then true else !(py_truthy e.state) } := rfl
  rw [hfirst] at h
  obtain ⟨hs, hm, hlen⟩ := add_idle_events_inv freq es _ t h0 h
  refine ⟨?_, ?_, ?_⟩
  · exact hs
  · rw [hlen]
    simp [initial_cpu_table]
  · rw [hm]
    show idle_offsets 0 e.time es = _
    rw [show (0 : ℤ) = e.time - e.time by omega]
    exact idle_offsets_eq_dropLast e.time es e

unseal Rat.add Rat.mul Rat.inv Rat.sub in
/-- Closed instance of `C10_theorem`: three idle events at times 10, 30
and 60 leave exactly two slices. -/
theorem C10_witness :
    ¬ (⟨10, 0, 0⟩ : EventIdle).time = 0 ∧
    add_idle_events 1000 (initial_cpu_table 0) [⟨10, 0, 0⟩, ⟨30, 0, 1⟩, ⟨60, 0, 1⟩] =
      .ok idle_table_witness ∧
    idle_table_witness.events.length =
      [(⟨10, 0, 0⟩ : EventIdle), ⟨30, 0, 1⟩, ⟨60, 0, 1⟩].length - 1 := by
  have hok : add_idle_events 1000 (initial_cpu_table 0)
      [⟨10, 0, 0⟩, ⟨30, 0, 1⟩, ⟨60, 0, 1⟩] = .ok idle_table_witness := by decide
  exact ⟨by decide, hok,
    (C10_theorem 1000 0 ⟨10, 0, 0⟩ [⟨30, 0, 1⟩, ⟨60, 0, 1⟩] idle_table_witness
      (by decide) hok).2.1⟩
